import Mathlib

/-!
Verification of the provisioning polling state machine
(`src/provisioning/device/src/polling_state_machine.ts`).

The TypeScript class `PollingStateMachine` wraps a machina FSM with states
`disconnected`, `idle`, `sendingRegistrationRequest`, `responseReceived`,
`responseComplete`, `responseError`, `waitingToPoll`, `polling` and
`endingSession`.  We embed it as an explicit machine record plus a `step`
function over external events (caller calls, transport completions, timer
elapses).

Modelling decisions, all taken from the source:
* JavaScript callback identity (the fresh closure handed to `register` /
  `endSession`, compared with `===` against `_currentOperationCallback`)
  is modelled by a `Token` (a `Nat`); distinct invocations carry distinct
  tokens.
* The three asynchronous transport operations and the `setTimeout` timer
  become lists of outstanding operations / an optional timer payload in the
  machine state; a completion event names the outstanding operation it
  completes and carries the transport-chosen response.
* machina transitions run the target state's `_onEnter` synchronously, so
  each `_onEnter` is a Lean function and synchronous transition chains are
  direct calls (the chains in this source are acyclic).  machina's
  `deferUntilTransition` (the `'*'` handlers) becomes an explicit queue of
  deferred inputs replayed after the next transition.
* `this.emit('operationStatus', body)` and every invocation of a caller
  callback append to a single ordered trace `log`, preserving the relative
  order of notifications and resolutions.
* An uncaught JavaScript exception (`body.status.toLowerCase()` when
  `body` or `body.status` is `null`/`undefined` throws a `TypeError`)
  makes `step` return `none`.
-/

/-- Identity of a caller-supplied callback closure (compared with `===`
in the source). -/
abbrev Token := Nat

/-- Opaque protocol-specific result object passed through by the transport. -/
abbrev Res := Nat

/-- Opaque `RegistrationRequest` object (only passed through by the machine). -/
abbrev Request := Nat

/-- Opaque request body (only passed through to the transport). -/
abbrev ReqBody := Nat

/-- Service response body: the machine reads `body.status` and
`body.operationId`; both may be absent (`null`/`undefined` in JS). -/
structure Body where
  status : Option String
  operationId : Option String
deriving DecidableEq, Repr

/-- The error values the machine can produce or pass through:
transport errors (passed through verbatim), `InvalidOperationError`,
`OperationCancelledError`, `DeviceRegistrationFailedError` (with `.body`
and `.result` attached), and the JS `SyntaxError` built in the
unknown-status branch (with `.body` and `.result` attached); the latter is
named `unknownStatusError` here. -/
inductive Err where
  | transportErr (code : Nat)
  | invalidOperation
  | operationCancelled
  | deviceRegistrationFailed (body : Body) (result : Option Res)
  | unknownStatusError (status : String) (body : Body) (result : Option Res)
deriving DecidableEq, Repr

/-- One invocation of a caller callback: which callback, and the
`(err, body, result)` arguments it received (absent arguments are `none`). -/
structure Resolution where
  callback : Token
  err : Option Err
  body : Option Body
  result : Option Res
deriving DecidableEq, Repr

/-- Ordered trace of externally visible actions: `operationStatus` event
emissions and caller-callback invocations. -/
inductive TraceEntry where
  | operationStatus (body : Body)
  | resolution (r : Resolution)
deriving DecidableEq, Repr

/-- An outstanding `PollingTransportHandlers.registrationRequest` call,
with the callback token captured by its completion closure. -/
structure RegOp where
  request : Request
  requestBody : ReqBody
  callback : Token
deriving DecidableEq, Repr

/-- An outstanding `PollingTransportHandlers.queryOperationStatus` call. -/
structure QueryOp where
  request : Request
  operationId : Option String
  callback : Token
deriving DecidableEq, Repr

/-- An outstanding `PollingTransportHandlers.endSession` call, carrying the
`(err, body, result, callback)` arguments of the `endingSession` state that
issued it. -/
structure EndOp where
  err : Option Err
  body : Option Body
  result : Option Res
  callback : Token
deriving DecidableEq, Repr

/-- The pending `setTimeout` payload installed by `waitingToPoll._onEnter`. -/
structure TimerPayload where
  request : Request
  operationId : Option String
  pollingInterval : Nat
  callback : Token
deriving DecidableEq, Repr

/-- The machina FSM states of the source. -/
inductive FsmState where
  | disconnected
  | idle
  | sendingRegistrationRequest
  | responseReceived
  | responseComplete
  | responseError
  | waitingToPoll
  | polling
  | endingSession
deriving DecidableEq, Repr

/-- A caller input handled by `fsm.handle`: the public `register` and
`endSession` methods. -/
inductive Input where
  | register (request : Request) (requestBody : ReqBody) (callback : Token)
  | endSession (callback : Token)
deriving DecidableEq, Repr

/-- The whole machine state: FSM state, `_currentOperationCallback`, the
outstanding transport operations, `_pollingTimer`, machina's queue of
deferred inputs, and the observable trace. -/
structure Machine where
  state : FsmState
  currentOperationCallback : Option Token
  regOps : List RegOp
  queryOps : List QueryOp
  endOps : List EndOp
  pollingTimer : Option TimerPayload
  deferred : List Input
  log : List TraceEntry
deriving DecidableEq, Repr

/-- `disconnected._onEnter(err, body, result, callback)`: clears
`_currentOperationCallback` and, if a callback was passed, invokes it. -/
def disconnected_onEnter (m : Machine) (err : Option Err) (body : Option Body)
    (result : Option Res) (callback : Option Token) : Machine :=
  let m1 : Machine := { m with state := FsmState.disconnected,
                               currentOperationCallback := none }
  match callback with
  | some cb => { m1 with log := m1.log ++ [TraceEntry.resolution ⟨cb, err, body, result⟩] }
  | none => m1

/-- `idle._onEnter(err, body, result, callback)`: invokes the callback with
the passed result. -/
def idle_onEnter (m : Machine) (err : Option Err) (body : Option Body)
    (result : Option Res) (callback : Token) : Machine :=
  { m with state := FsmState.idle,
           log := m.log ++ [TraceEntry.resolution ⟨callback, err, body, result⟩] }

/-- `sendingRegistrationRequest._onEnter(request, requestBody, callback)`:
stores the callback in `_currentOperationCallback` and issues
`transport.registrationRequest` (a new outstanding operation capturing the
callback). -/
def sendingRegistrationRequest_onEnter (m : Machine) (request : Request)
    (requestBody : ReqBody) (callback : Token) : Machine :=
  { m with state := FsmState.sendingRegistrationRequest,
           currentOperationCallback := some callback,
           regOps := m.regOps ++ [⟨request, requestBody, callback⟩] }

/-- `endingSession._onEnter(err, body, result, callback)`: if
`_currentOperationCallback` exists, clears it and fails it with
`OperationCancelledError`; then issues `transport.endSession`, whose
completion closure captures `(err, body, result, callback)`. -/
def endingSession_onEnter (m : Machine) (err : Option Err) (body : Option Body)
    (result : Option Res) (callback : Token) : Machine :=
  let m1 : Machine :=
    match m.currentOperationCallback with
    | some opCb =>
        { m with currentOperationCallback := none,
                 log := m.log ++
                   [TraceEntry.resolution ⟨opCb, some Err.operationCancelled, none, none⟩] }
    | none => m
  { m1 with state := FsmState.endingSession,
            endOps := m1.endOps ++ [⟨err, body, result, callback⟩] }

/-- `waitingToPoll._onEnter(request, operationId, pollingInterval, callback)`:
starts the `setTimeout` timer. -/
def waitingToPoll_onEnter (m : Machine) (request : Request)
    (operationId : Option String) (pollingInterval : Nat) (callback : Token) : Machine :=
  { m with state := FsmState.waitingToPoll,
           pollingTimer := some ⟨request, operationId, pollingInterval, callback⟩ }

/-- `polling._onEnter(request, operationId, pollingInterval, callback)`:
issues `transport.queryOperationStatus` (a new outstanding operation
capturing the callback). -/
def polling_onEnter (m : Machine) (request : Request) (operationId : Option String)
    (pollingInterval : Nat) (callback : Token) : Machine :=
  { m with state := FsmState.polling,
           queryOps := m.queryOps ++ [⟨request, operationId, callback⟩] }

/-- `responseComplete._onEnter(body, result, callback)`: clears
`_currentOperationCallback`, emits `operationStatus`, and transitions to
`idle` with `(null, body, result, callback)`. -/
def responseComplete_onEnter (m : Machine) (body : Body) (result : Option Res)
    (callback : Token) : Machine :=
  let m1 : Machine := { m with state := FsmState.responseComplete,
                               currentOperationCallback := none,
                               log := m.log ++ [TraceEntry.operationStatus body] }
  idle_onEnter m1 none (some body) result callback

/-- `responseError._onEnter(err, body, result, callback)`: clears
`_currentOperationCallback` and transitions to `endingSession` carrying the
error. -/
def responseError_onEnter (m : Machine) (err : Err) (body : Option Body)
    (result : Option Res) (callback : Token) : Machine :=
  let m1 : Machine := { m with state := FsmState.responseError,
                               currentOperationCallback := none }
  endingSession_onEnter m1 (some err) body result callback

/-- ASCII lowercasing of one character, as `Char.toLower` /
JS `String.prototype.toLowerCase` act on the ASCII status strings of this
protocol. -/
def lowerChar (c : Char) : Char :=
  if 65 ≤ c.toNat ∧ c.toNat ≤ 90 then Char.ofNat (c.toNat + 32) else c

/-- Embedding of `body.status.toLowerCase()` (ASCII range). -/
def lowerString (s : String) : String :=
  String.mk (s.data.map lowerChar)

/-- `responseReceived._onEnter(err, request, body, result, pollingInterval,
callback)`: classifies the completion.  A transport error goes to
`responseError`; otherwise the machine reads `body.status.toLowerCase()`
(which throws a `TypeError`, modelled as `none`, when `body` or
`body.status` is `null`/`undefined`) and switches on `assigned`,
`assigning`, `failed`, or the default (unknown-status) branch. -/
def responseReceived_onEnter (m : Machine) (err : Option Err) (request : Request)
    (body : Option Body) (result : Option Res) (pollingInterval : Nat)
    (callback : Token) : Option Machine :=
  let m1 : Machine := { m with state := FsmState.responseReceived }
  match err with
  | some e => some (responseError_onEnter m1 e body result callback)
  | none =>
    match body with
    | none => none
    | some b =>
      match b.status with
      | none => none
      | some s =>
        if lowerString s = "assigned" then
          some (responseComplete_onEnter m1 b result callback)
        else if lowerString s = "assigning" then
          let m2 : Machine := { m1 with log := m1.log ++ [TraceEntry.operationStatus b] }
          some (waitingToPoll_onEnter m2 request b.operationId pollingInterval callback)
        else if lowerString s = "failed" then
          some (responseError_onEnter m1 (Err.deviceRegistrationFailed b result)
            (some b) result callback)
        else
          some (responseError_onEnter m1 (Err.unknownStatusError s b result)
            (some b) result callback)

/-- The states whose `'*'` handler calls `deferUntilTransition`. -/
def defersInput : FsmState → Bool
  | FsmState.responseReceived => true
  | FsmState.responseComplete => true
  | FsmState.responseError => true
  | FsmState.endingSession => true
  | _ => false

/-- `fsm.handle` for caller inputs: dispatch on the current state exactly as
in the transition table.  `register` in `disconnected`/`idle` starts an
attempt; in `sendingRegistrationRequest`/`waitingToPoll`/`polling` it is
rejected with `InvalidOperationError`; in the deferring states it is queued.
`endSession` in `disconnected` calls back immediately with no transport
call; in `idle`/`sendingRegistrationRequest`/`polling` it transitions to
`endingSession`; in `waitingToPoll` it first clears the timer
(`clearTimeout`); in the deferring states it is queued. -/
def handle (m : Machine) (i : Input) : Machine :=
  match i with
  | Input.register request requestBody cb =>
    match m.state with
    | FsmState.disconnected => sendingRegistrationRequest_onEnter m request requestBody cb
    | FsmState.idle => sendingRegistrationRequest_onEnter m request requestBody cb
    | FsmState.sendingRegistrationRequest =>
        { m with log := m.log ++
            [TraceEntry.resolution ⟨cb, some Err.invalidOperation, none, none⟩] }
    | FsmState.waitingToPoll =>
        { m with log := m.log ++
            [TraceEntry.resolution ⟨cb, some Err.invalidOperation, none, none⟩] }
    | FsmState.polling =>
        { m with log := m.log ++
            [TraceEntry.resolution ⟨cb, some Err.invalidOperation, none, none⟩] }
    | _ => { m with deferred := m.deferred ++ [i] }
  | Input.endSession cb =>
    match m.state with
    | FsmState.disconnected =>
        { m with log := m.log ++ [TraceEntry.resolution ⟨cb, none, none, none⟩] }
    | FsmState.idle => endingSession_onEnter m none none none cb
    | FsmState.sendingRegistrationRequest => endingSession_onEnter m none none none cb
    | FsmState.waitingToPoll =>
        endingSession_onEnter { m with pollingTimer := none } none none none cb
    | FsmState.polling => endingSession_onEnter m none none none cb
    | _ => { m with deferred := m.deferred ++ [i] }

/-- Replay a list of deferred inputs in order through `handle` (machina's
queue processing after a transition; an input handled while the machine is
back in a deferring state is re-queued by `handle` itself). -/
def replayAll : List Input → Machine → Machine
  | [], m => m
  | i :: rest, m => replayAll rest (handle m i)

/-- Take the deferred queue and replay it (machina's behavior after a
transition completes). -/
def replayDeferred (m : Machine) : Machine :=
  replayAll m.deferred { m with deferred := [] }

/-- External events: the two caller calls, the three transport completions
(naming the outstanding operation they complete, plus the transport-chosen
response data), and the timer firing. -/
inductive Event where
  | register (request : Request) (requestBody : ReqBody) (callback : Token)
  | endSession (callback : Token)
  | regResponse (i : Nat) (err : Option Err) (body : Option Body)
      (result : Option Res) (pollingInterval : Nat)
  | queryResponse (i : Nat) (err : Option Err) (body : Option Body)
      (result : Option Res) (pollingInterval : Nat)
  | endResponse (i : Nat) (disconnectErr : Option Err)
  | timerElapse
deriving DecidableEq, Repr

/-- One external event processed to quiescence.  Transport completions
consume their outstanding operation and run the captured completion
closure: for `registrationRequest` / `queryOperationStatus` the closure
compares the captured callback against `_currentOperationCallback` and
either transitions to `responseReceived` or (stale) only logs; for
`endSession` it computes `err || disconnectErr` and transitions to
`disconnected`.  The timer closure transitions to `polling`.  `none` means
an uncaught exception was thrown. -/
def step (m : Machine) (e : Event) : Option Machine :=
  match e with
  | Event.register request requestBody cb =>
      some (replayDeferred (handle m (Input.register request requestBody cb)))
  | Event.endSession cb =>
      some (replayDeferred (handle m (Input.endSession cb)))
  | Event.regResponse i err body result pollingInterval =>
      match m.regOps[i]? with
      | none => some m
      | some op =>
        let m1 : Machine := { m with regOps := m.regOps.eraseIdx i }
        if m1.currentOperationCallback = some op.callback then
          (responseReceived_onEnter m1 err op.request body result pollingInterval
            op.callback).map replayDeferred
        else some m1
  | Event.queryResponse i err body result pollingInterval =>
      match m.queryOps[i]? with
      | none => some m
      | some op =>
        let m1 : Machine := { m with queryOps := m.queryOps.eraseIdx i }
        if m1.currentOperationCallback = some op.callback then
          (responseReceived_onEnter m1 err op.request body result pollingInterval
            op.callback).map replayDeferred
        else some m1
  | Event.endResponse i disconnectErr =>
      match m.endOps[i]? with
      | none => some m
      | some op =>
        let m1 : Machine := { m with endOps := m.endOps.eraseIdx i }
        let carried : Option Err :=
          match op.err with
          | some e => some e
          | none => disconnectErr
        some (replayDeferred (disconnected_onEnter m1 carried op.body op.result
          (some op.callback)))
  | Event.timerElapse =>
      match m.pollingTimer with
      | none => some m
      | some t =>
        let m1 : Machine := { m with pollingTimer := none }
        some (replayDeferred (polling_onEnter m1 t.request t.operationId
          t.pollingInterval t.callback))

/-- The machine as constructed: machina initial state `disconnected`,
no current operation callback, nothing outstanding, empty trace. -/
def initMachine : Machine :=
  { state := FsmState.disconnected
    currentOperationCallback := none
    regOps := []
    queryOps := []
    endOps := []
    pollingTimer := none
    deferred := []
    log := [] }

/-- Run a list of events; `none` as soon as a step throws. -/
def run : Machine → List Event → Option Machine
  | m, [] => some m
  | m, e :: es =>
    match step m e with
    | none => none
    | some m1 => run m1 es

/-! ## General lemmas about deferral replay -/

/-- Replaying an empty queue is the identity. -/
theorem replayAll_nil (m : Machine) : replayAll [] m = m := rfl

/-- Clearing an already-empty deferred queue leaves the machine unchanged. -/
theorem with_deferred_nil (m : Machine) (h : m.deferred = []) :
    ({ m with deferred := [] } : Machine) = m := by
  cases m
  simp_all

/-- With nothing deferred, the post-transition replay is the identity. -/
theorem replayDeferred_of_nil (m : Machine) (h : m.deferred = []) :
    replayDeferred m = m := by
  unfold replayDeferred
  rw [h]
  exact with_deferred_nil m h

/-- In a state whose `'*'` handler defers, `handle` only queues the input. -/
theorem handle_defers (m : Machine) (i : Input) (h : defersInput m.state = true) :
    handle m i = { m with deferred := m.deferred ++ [i] } := by
  cases i <;> cases hs : m.state <;> simp_all [handle, defersInput]

/-- Replaying any queue while in a deferring state just re-queues it. -/
theorem replayAll_defers (q : List Input) :
    ∀ m : Machine, defersInput m.state = true →
      replayAll q m = { m with deferred := m.deferred ++ q } := by
  induction q with
  | nil => intro m _; cases m; simp [replayAll]
  | cons i rest ih =>
    intro m h
    rw [replayAll, handle_defers m i h,
      ih { m with deferred := m.deferred ++ [i] } h]
    simp

/-- In a deferring state the post-transition replay is the identity. -/
theorem replayDeferred_defers (m : Machine) (h : defersInput m.state = true) :
    replayDeferred m = m := by
  unfold replayDeferred
  rw [replayAll_defers m.deferred { m with deferred := [] } h]
  simp

/-! ## Claim C2: happy path -/

/-- The "assigning" body returned by the first transport completion. -/
def happyBody1 : Body := ⟨some "assigning", some "op1"⟩

/-- The "assigned" body returned by the query completion. -/
def happyBody2 : Body := ⟨some "assigned", some "op1"⟩

/-- The happy-path event sequence: `register`, registration response
(status "assigning", operation id "op1", interval 100), the delay elapses,
query response (status "assigned"). -/
def happyEvents : List Event :=
  [Event.register 0 0 1,
   Event.regResponse 0 none (some happyBody1) (some 7) 100,
   Event.timerElapse,
   Event.queryResponse 0 none (some happyBody2) (some 8) 0]

/-- C2: on the happy-path trace the caller's `register` callback is invoked
with (no error, the final body, the final result), and exactly two
`operationStatus` events are emitted — first the assigning body, then the
assigned body — with the second emission preceding the resolution in the
trace. -/
theorem happy_path_trace :
    run initMachine happyEvents =
      some { state := FsmState.idle, currentOperationCallback := none,
             regOps := [], queryOps := [], endOps := [], pollingTimer := none,
             deferred := [],
             log := [TraceEntry.operationStatus happyBody1,
                     TraceEntry.operationStatus happyBody2,
                     TraceEntry.resolution ⟨1, none, some happyBody2, some 8⟩] } := by
  decide

/-! ## Claim C8: null / absent status -/

/-- A registration-request completion with no transport error whose body
has a null status field. -/
def nullStatusEvents : List Event :=
  [Event.register 0 0 1,
   Event.regResponse 0 none (some ⟨none, some "op1"⟩) (some 3) 100]

/-- C8: delivering a completion with no error and a null/absent `status`
makes the machine throw (`body.status.toLowerCase()` raises a `TypeError`),
modelled as `run` returning `none`: the caller's callback is never invoked
with a protocol-format error, contrary to the claim. -/
theorem null_status_crashes : run initMachine nullStatusEvents = none := by rfl

/-! ## Claim C1: stale completions are discarded -/

/-- C1: a transport completion (registration request or query) whose
captured callback differs from `_currentOperationCallback` at delivery time
only removes the outstanding operation: state, current callback, timer,
deferred queue and the whole observable trace are untouched, so no state
transition and no caller resolution occurs. -/
theorem stale_completion_no_effect (m : Machine) :
    (∀ i op err body result pollingInterval, m.regOps[i]? = some op →
        m.currentOperationCallback ≠ some op.callback →
        step m (Event.regResponse i err body result pollingInterval) =
          some { m with regOps := m.regOps.eraseIdx i }) ∧
    (∀ i op err body result pollingInterval, m.queryOps[i]? = some op →
        m.currentOperationCallback ≠ some op.callback →
        step m (Event.queryResponse i err body result pollingInterval) =
          some { m with queryOps := m.queryOps.eraseIdx i }) := by
  constructor <;>
  · intro i op err body result pollingInterval h1 h2
    simp [step, h1, h2]

/-- The machine after `register` (callback 1) followed by `endSession`
(callback 2) from `sendingRegistrationRequest`: the attempt was cancelled,
yet its registration request is still outstanding. -/
def staleMachine : Machine :=
  { state := FsmState.endingSession, currentOperationCallback := none,
    regOps := [⟨0, 0, 1⟩], queryOps := [],
    endOps := [⟨none, none, none, 2⟩], pollingTimer := none, deferred := [],
    log := [TraceEntry.resolution ⟨1, some Err.operationCancelled, none, none⟩] }

/-- C1 witness: cancel an attempt via `endSession` while in
`SendingRegistrationRequest`, then deliver the original registration
response: the machine only drops the outstanding call — same state, same
trace, no second resolution of callback 1. -/
theorem stale_completion_no_effect_witness :
    run initMachine [Event.register 0 0 1, Event.endSession 2] = some staleMachine ∧
    step staleMachine (Event.regResponse 0 none (some ⟨some "assigned", none⟩) (some 9) 0) =
      some { staleMachine with regOps := staleMachine.regOps.eraseIdx 0 } :=
  ⟨by rfl,
   (stale_completion_no_effect staleMachine).1 0 ⟨0, 0, 1⟩ none
     (some ⟨some "assigned", none⟩) (some 9) 0 (by rfl) (by decide)⟩

/-! ## Claim C5: register while busy -/

/-- C5: `register` issued while the machine is in
`sendingRegistrationRequest`, `waitingToPoll` or `polling` fails the new
callback immediately with `InvalidOperationError` and changes nothing
else: state, current callback, outstanding operations, timer and deferred
queue are untouched, so the in-flight attempt's eventual outcome is
unchanged. -/
theorem register_rejected_while_busy (m : Machine) (request : Request)
    (requestBody : ReqBody) (cb : Token)
    (hstate : m.state = FsmState.sendingRegistrationRequest ∨
      m.state = FsmState.waitingToPoll ∨ m.state = FsmState.polling)
    (hdef : m.deferred = []) :
    step m (Event.register request requestBody cb) =
      some { m with log := m.log ++
        [TraceEntry.resolution ⟨cb, some Err.invalidOperation, none, none⟩] } := by
  have hh : handle m (Input.register request requestBody cb) =
      { m with log := m.log ++
        [TraceEntry.resolution ⟨cb, some Err.invalidOperation, none, none⟩] } := by
    rcases hstate with h | h | h <;> simp [handle, h]
  simp only [step]
  rw [hh, replayDeferred_of_nil _ (by simpa using hdef)]

/-- C5 witness: a concrete rejected `register` while waiting to poll. -/
theorem register_rejected_while_busy_witness :
    step { state := FsmState.waitingToPoll, currentOperationCallback := some 1,
           regOps := [⟨0, 0, 1⟩], queryOps := [], endOps := [],
           pollingTimer := some ⟨0, some "op1", 100, 1⟩, deferred := [], log := [] }
      (Event.register 4 4 9) =
      some { state := FsmState.waitingToPoll, currentOperationCallback := some 1,
             regOps := [⟨0, 0, 1⟩], queryOps := [], endOps := [],
             pollingTimer := some ⟨0, some "op1", 100, 1⟩, deferred := [],
             log := [TraceEntry.resolution ⟨9, some Err.invalidOperation, none, none⟩] } := by
  have h := register_rejected_while_busy
    { state := FsmState.waitingToPoll, currentOperationCallback := some 1,
      regOps := [⟨0, 0, 1⟩], queryOps := [], endOps := [],
      pollingTimer := some ⟨0, some "op1", 100, 1⟩, deferred := [], log := [] }
    4 4 9 (Or.inr (Or.inl rfl)) rfl
  simpa using h

/-! ## Claim C7: disconnect errors never override carried errors -/

/-- C7: when the transport's end-session call completes, the machine
transitions `endingSession → disconnected` and resolves the carried
callback with `err || disconnectErr`: a carried error is delivered
unchanged whatever the disconnect error was, and the disconnect error is
delivered only when no error was being carried. -/
theorem carried_error_not_overridden (m : Machine) (err : Option Err)
    (body : Option Body) (result : Option Res) (cb : Token) (dErr : Option Err)
    (hend : m.endOps = [⟨err, body, result, cb⟩])
    (hdef : m.deferred = []) :
    (∀ e, err = some e →
      step m (Event.endResponse 0 dErr) =
        some { m with state := FsmState.disconnected, currentOperationCallback := none,
                      endOps := [],
                      log := m.log ++ [TraceEntry.resolution ⟨cb, some e, body, result⟩] }) ∧
    (err = none →
      step m (Event.endResponse 0 dErr) =
        some { m with state := FsmState.disconnected, currentOperationCallback := none,
                      endOps := [],
                      log := m.log ++ [TraceEntry.resolution ⟨cb, dErr, body, result⟩] }) := by
  constructor
  · intro e he
    subst he
    simp only [step, hend]
    simp [disconnected_onEnter]
    rw [replayDeferred_of_nil _ (by simpa using hdef)]
  · intro he
    subst he
    simp only [step, hend]
    simp [disconnected_onEnter]
    rw [replayDeferred_of_nil _ (by simpa using hdef)]

/-- C7 witness: with a carried `DeviceRegistrationFailedError` and a
failing transport end-session call, the caller still receives the carried
error; with no carried error, the disconnect error is delivered. -/
theorem carried_error_not_overridden_witness :
    step { state := FsmState.endingSession, currentOperationCallback := none,
           regOps := [], queryOps := [],
           endOps := [⟨some (Err.deviceRegistrationFailed ⟨some "failed", none⟩ (some 4)),
                       some ⟨some "failed", none⟩, some 4, 1⟩],
           pollingTimer := none, deferred := [], log := [] }
      (Event.endResponse 0 (some (Err.transportErr 9))) =
      some { state := FsmState.disconnected, currentOperationCallback := none,
             regOps := [], queryOps := [], endOps := [], pollingTimer := none,
             deferred := [],
             log := [TraceEntry.resolution
               ⟨1, some (Err.deviceRegistrationFailed ⟨some "failed", none⟩ (some 4)),
                some ⟨some "failed", none⟩, some 4⟩] } ∧
    step { state := FsmState.endingSession, currentOperationCallback := none,
           regOps := [], queryOps := [], endOps := [⟨none, none, none, 2⟩],
           pollingTimer := none, deferred := [], log := [] }
      (Event.endResponse 0 (some (Err.transportErr 9))) =
      some { state := FsmState.disconnected, currentOperationCallback := none,
             regOps := [], queryOps := [], endOps := [], pollingTimer := none,
             deferred := [],
             log := [TraceEntry.resolution ⟨2, some (Err.transportErr 9), none, none⟩] } := by
  constructor
  · have h := (carried_error_not_overridden
      { state := FsmState.endingSession, currentOperationCallback := none,
        regOps := [], queryOps := [],
        endOps := [⟨some (Err.deviceRegistrationFailed ⟨some "failed", none⟩ (some 4)),
                    some ⟨some "failed", none⟩, some 4, 1⟩],
        pollingTimer := none, deferred := [], log := [] }
      (some (Err.deviceRegistrationFailed ⟨some "failed", none⟩ (some 4)))
      (some ⟨some "failed", none⟩) (some 4) 1 (some (Err.transportErr 9)) rfl rfl).1
      (Err.deviceRegistrationFailed ⟨some "failed", none⟩ (some 4)) rfl
    simpa using h
  · have h := (carried_error_not_overridden
      { state := FsmState.endingSession, currentOperationCallback := none,
        regOps := [], queryOps := [], endOps := [⟨none, none, none, 2⟩],
        pollingTimer := none, deferred := [], log := [] }
      none none none 2 (some (Err.transportErr 9)) rfl rfl).2 rfl
    simpa using h

def endSessionDisconnectErrEvents : List Event :=
  [Event.register 0 0 1, Event.endSession 2,
   Event.endResponse 0 (some (Err.transportErr 5))]

/-- C6 counterexample: `register` (callback 1), `endSession` (callback 2),
then the transport's end-session call completes WITH an error: the
endSession caller's callback receives that transport error, contradicting
the claim that it always receives no error once the transport end-session
call completes. -/
theorem endSession_caller_gets_disconnect_error :
    run initMachine endSessionDisconnectErrEvents =
      some { state := FsmState.disconnected, currentOperationCallback := none,
             regOps := [⟨0, 0, 1⟩], queryOps := [], endOps := [], pollingTimer := none,
             deferred := [],
             log := [TraceEntry.resolution ⟨1, some Err.operationCancelled, none, none⟩,
                     TraceEntry.resolution ⟨2, some (Err.transportErr 5), none, none⟩] } := by
  rfl

/-- C6 amended: from `disconnected`, `endSession` succeeds immediately with
no transport call; from `sendingRegistrationRequest` with an attempt in
flight, the attempt's callback is first failed with
`OperationCancelledError` (surfaced to the attempt's caller only, never to
the endSession caller); once the transport's end-session call completes,
the endSession caller receives exactly the transport's disconnect error —
no error whenever the transport end-session call succeeds. -/
theorem endSession_outcome (m : Machine) (cb cbE : Token) (dErr : Option Err)
    (hdef : m.deferred = []) :
    (m.state = FsmState.disconnected →
      step m (Event.endSession cbE) =
        some { m with log := m.log ++ [TraceEntry.resolution ⟨cbE, none, none, none⟩] }) ∧
    (m.state = FsmState.sendingRegistrationRequest →
      m.currentOperationCallback = some cb →
      m.endOps = [] →
      step m (Event.endSession cbE) =
        some { m with state := FsmState.endingSession,
                      currentOperationCallback := none,
                      endOps := [⟨none, none, none, cbE⟩],
                      log := m.log ++
                        [TraceEntry.resolution ⟨cb, some Err.operationCancelled, none, none⟩] }) ∧
    (∀ m1 : Machine, m1.endOps = [⟨none, none, none, cbE⟩] → m1.deferred = [] →
      step m1 (Event.endResponse 0 dErr) =
        some { m1 with state := FsmState.disconnected, currentOperationCallback := none,
                       endOps := [],
                       log := m1.log ++ [TraceEntry.resolution ⟨cbE, dErr, none, none⟩] }) := by
  refine ⟨?_, ?_, ?_⟩
  · intro h
    simp only [step, handle, h]
    rw [replayDeferred_of_nil _ (by simpa using hdef)]
  · intro h hcur hend
    simp only [step, handle, h]
    rw [endingSession_onEnter]
    simp only [hcur, hend]
    rw [replayDeferred_of_nil _ (by simpa using hdef)]
    simp
  · intro m1 hend1 hdef1
    simp only [step, hend1]
    simp [disconnected_onEnter]
    rw [replayDeferred_of_nil _ (by simpa using hdef1)]

/-- C6 witness: concrete cancel-then-disconnect run with a successful
transport end-session call: callback 1 gets `OperationCancelledError`,
callback 2 gets no error. -/
theorem endSession_outcome_witness :
    step { state := FsmState.sendingRegistrationRequest, currentOperationCallback := some 1,
           regOps := [⟨0, 0, 1⟩], queryOps := [], endOps := [], pollingTimer := none,
           deferred := [], log := [] }
      (Event.endSession 2) =
      some { state := FsmState.endingSession, currentOperationCallback := none,
             regOps := [⟨0, 0, 1⟩], queryOps := [], endOps := [⟨none, none, none, 2⟩],
             pollingTimer := none, deferred := [],
             log := [TraceEntry.resolution ⟨1, some Err.operationCancelled, none, none⟩] } ∧
    step { state := FsmState.endingSession, currentOperationCallback := none,
           regOps := [⟨0, 0, 1⟩], queryOps := [], endOps := [⟨none, none, none, 2⟩],
           pollingTimer := none, deferred := [],
           log := [TraceEntry.resolution ⟨1, some Err.operationCancelled, none, none⟩] }
      (Event.endResponse 0 none) =
      some { state := FsmState.disconnected, currentOperationCallback := none,
             regOps := [⟨0, 0, 1⟩], queryOps := [], endOps := [], pollingTimer := none,
             deferred := [],
             log := [TraceEntry.resolution ⟨1, some Err.operationCancelled, none, none⟩,
                     TraceEntry.resolution ⟨2, none, none, none⟩] } := by
  constructor
  · have h := (endSession_outcome
      { state := FsmState.sendingRegistrationRequest, currentOperationCallback := some 1,
        regOps := [⟨0, 0, 1⟩], queryOps := [], endOps := [], pollingTimer := none,
        deferred := [], log := [] } 1 2 none rfl).2.1 rfl rfl rfl
    simpa using h
  · have h := (endSession_outcome
      { state := FsmState.sendingRegistrationRequest, currentOperationCallback := some 1,
        regOps := [⟨0, 0, 1⟩], queryOps := [], endOps := [], pollingTimer := none,
        deferred := [], log := [] } 1 2 none rfl).2.2
      { state := FsmState.endingSession, currentOperationCallback := none,
        regOps := [⟨0, 0, 1⟩], queryOps := [], endOps := [⟨none, none, none, 2⟩],
        pollingTimer := none, deferred := [],
        log := [TraceEntry.resolution ⟨1, some Err.operationCancelled, none, none⟩] }
      rfl rfl
    simpa using h

/-- C10: `register` arriving in any state whose `'*'` handler defers
(`responseReceived`, `responseComplete`, `responseError`, `endingSession`)
is queued, not rejected — no `InvalidOperationError`, no log change — and a
register deferred during `endingSession` is replayed after the machine
reaches `disconnected`: the final machine is back in
`sendingRegistrationRequest` with a fresh attempt for the deferred
callback. -/
theorem register_during_teardown_deferred (m : Machine) (req : Request)
    (rb : ReqBody) (cb : Token) :
    (defersInput m.state = true →
      step m (Event.register req rb cb) =
        some { m with deferred := m.deferred ++ [Input.register req rb cb] }) ∧
    (∀ oerr ob ores ocb dErr,
      m.endOps = [⟨oerr, ob, ores, ocb⟩] →
      step { m with deferred := [Input.register req rb cb] } (Event.endResponse 0 dErr) =
        some { m with state := FsmState.sendingRegistrationRequest,
                      currentOperationCallback := some cb,
                      regOps := m.regOps ++ [⟨req, rb, cb⟩],
                      endOps := [],
                      deferred := [],
                      log := m.log ++ [TraceEntry.resolution
                        ⟨ocb, match oerr with | some e => some e | none => dErr, ob, ores⟩] }) := by
  constructor
  · intro h
    simp only [step]
    rw [handle_defers m _ h]
    rw [replayDeferred_defers _ (by simpa using h)]
  · intro oerr ob ores ocb dErr hend
    simp only [step]
    simp only [hend]
    simp [disconnected_onEnter, replayDeferred, replayAll, handle,
      sendingRegistrationRequest_onEnter]

/-- C10 witness: a concrete register during `endingSession` is queued with
no rejection, and after the end-session completion it is replayed into a
fresh attempt. -/
theorem register_during_teardown_deferred_witness :
    step { state := FsmState.endingSession, currentOperationCallback := none,
           regOps := [], queryOps := [], endOps := [⟨none, none, none, 2⟩],
           pollingTimer := none, deferred := [], log := [] }
      (Event.register 7 8 3) =
      some { state := FsmState.endingSession, currentOperationCallback := none,
             regOps := [], queryOps := [], endOps := [⟨none, none, none, 2⟩],
             pollingTimer := none, deferred := [Input.register 7 8 3], log := [] } ∧
    step { state := FsmState.endingSession, currentOperationCallback := none,
           regOps := [], queryOps := [], endOps := [⟨none, none, none, 2⟩],
           pollingTimer := none, deferred := [Input.register 7 8 3], log := [] }
      (Event.endResponse 0 none) =
      some { state := FsmState.sendingRegistrationRequest,
             currentOperationCallback := some 3,
             regOps := [⟨7, 8, 3⟩], queryOps := [], endOps := [], pollingTimer := none,
             deferred := [],
             log := [TraceEntry.resolution ⟨2, none, none, none⟩] } := by
  constructor
  · have h := (register_during_teardown_deferred
      { state := FsmState.endingSession, currentOperationCallback := none,
        regOps := [], queryOps := [], endOps := [⟨none, none, none, 2⟩],
        pollingTimer := none, deferred := [], log := [] } 7 8 3).1 rfl
    simpa using h
  · have h := (register_during_teardown_deferred
      { state := FsmState.endingSession, currentOperationCallback := none,
        regOps := [], queryOps := [], endOps := [⟨none, none, none, 2⟩],
        pollingTimer := none, deferred := [], log := [] } 7 8 3).2
      none none none 2 none rfl
    simpa using h

/-- The canonical in-flight machine: one `register` (callback `cb`) was
accepted and its registration request is outstanding. -/
def inflightMachine (req : Request) (rb : ReqBody) (cb : Token)
    (L : List TraceEntry) : Machine :=
  { state := FsmState.sendingRegistrationRequest, currentOperationCallback := some cb,
    regOps := [⟨req, rb, cb⟩], queryOps := [], endOps := [], pollingTimer := none,
    deferred := [], log := L }

/-- C4: response classification from an in-flight attempt compares
`body.status` lowercased against exactly four outcomes: "assigned"
completes the attempt successfully (callback gets no error, the body and
the result), "assigning" continues polling (timer armed, no resolution),
"failed" fails the attempt with `DeviceRegistrationFailedError` carrying
the body and the result, and any other status fails it with the distinct
unknown-status error (the JS `SyntaxError`) carrying the body and the
result — an error kind different from a transport error and from the
registration-failed error. -/
theorem status_classification (req : Request) (rb : ReqBody) (cb : Token)
    (L : List TraceEntry) (s : String) (oid : Option String) (result : Option Res)
    (pollingInterval : Nat) :
    (lowerString s = "assigned" →
      step (inflightMachine req rb cb L)
          (Event.regResponse 0 none (some ⟨some s, oid⟩) result pollingInterval) =
        some { state := FsmState.idle, currentOperationCallback := none,
               regOps := [], queryOps := [], endOps := [], pollingTimer := none,
               deferred := [],
               log := L ++ [TraceEntry.operationStatus ⟨some s, oid⟩,
                            TraceEntry.resolution ⟨cb, none, some ⟨some s, oid⟩, result⟩] }) ∧
    (lowerString s = "assigning" →
      step (inflightMachine req rb cb L)
          (Event.regResponse 0 none (some ⟨some s, oid⟩) result pollingInterval) =
        some { state := FsmState.waitingToPoll, currentOperationCallback := some cb,
               regOps := [], queryOps := [], endOps := [],
               pollingTimer := some ⟨req, oid, pollingInterval, cb⟩, deferred := [],
               log := L ++ [TraceEntry.operationStatus ⟨some s, oid⟩] }) ∧
    (lowerString s = "failed" →
      step (inflightMachine req rb cb L)
          (Event.regResponse 0 none (some ⟨some s, oid⟩) result pollingInterval) =
        some { state := FsmState.endingSession, currentOperationCallback := none,
               regOps := [], queryOps := [],
               endOps := [⟨some (Err.deviceRegistrationFailed ⟨some s, oid⟩ result),
                           some ⟨some s, oid⟩, result, cb⟩],
               pollingTimer := none, deferred := [], log := L }) ∧
    (lowerString s ≠ "assigned" → lowerString s ≠ "assigning" → lowerString s ≠ "failed" →
      step (inflightMachine req rb cb L)
          (Event.regResponse 0 none (some ⟨some s, oid⟩) result pollingInterval) =
        some { state := FsmState.endingSession, currentOperationCallback := none,
               regOps := [], queryOps := [],
               endOps := [⟨some (Err.unknownStatusError s ⟨some s, oid⟩ result),
                           some ⟨some s, oid⟩, result, cb⟩],
               pollingTimer := none, deferred := [], log := L }) ∧
    (∀ status body res code, Err.unknownStatusError status body res ≠ Err.transportErr code) ∧
    (∀ status body res b2 r2,
      Err.unknownStatusError status body res ≠ Err.deviceRegistrationFailed b2 r2) := by
  refine ⟨?_, ?_, ?_, ?_, ?_, ?_⟩
  · intro hs
    simp [step, inflightMachine, responseReceived_onEnter, hs,
      responseComplete_onEnter, idle_onEnter, replayDeferred, replayAll]
  · intro hs
    simp [step, inflightMachine, responseReceived_onEnter, hs,
      waitingToPoll_onEnter, replayDeferred, replayAll]
  · intro hs
    simp [step, inflightMachine, responseReceived_onEnter, hs,
      responseError_onEnter, endingSession_onEnter, replayDeferred, replayAll]
  · intro h1 h2 h3
    simp [step, inflightMachine, responseReceived_onEnter, h1, h2, h3,
      responseError_onEnter, endingSession_onEnter, replayDeferred, replayAll]
  · intro status body res code h
    exact Err.noConfusion h
  · intro status body res b2 r2 h
    exact Err.noConfusion h

/-- C4 witness: mixed-case "ASSIGNED" succeeds, "Failed" produces the
registration-failed error, "garbage" produces the unknown-status error. -/
theorem status_classification_witness :
    step (inflightMachine 0 0 1 [])
        (Event.regResponse 0 none (some ⟨some "ASSIGNED", some "op1"⟩) (some 5) 100) =
      some { state := FsmState.idle, currentOperationCallback := none,
             regOps := [], queryOps := [], endOps := [], pollingTimer := none,
             deferred := [],
             log := [TraceEntry.operationStatus ⟨some "ASSIGNED", some "op1"⟩,
                     TraceEntry.resolution ⟨1, none, some ⟨some "ASSIGNED", some "op1"⟩, some 5⟩] } ∧
    step (inflightMachine 0 0 1 [])
        (Event.regResponse 0 none (some ⟨some "Failed", none⟩) (some 5) 100) =
      some { state := FsmState.endingSession, currentOperationCallback := none,
             regOps := [], queryOps := [],
             endOps := [⟨some (Err.deviceRegistrationFailed ⟨some "Failed", none⟩ (some 5)),
                         some ⟨some "Failed", none⟩, some 5, 1⟩],
             pollingTimer := none, deferred := [], log := [] } ∧
    step (inflightMachine 0 0 1 [])
        (Event.regResponse 0 none (some ⟨some "garbage", none⟩) (some 5) 100) =
      some { state := FsmState.endingSession, currentOperationCallback := none,
             regOps := [], queryOps := [],
             endOps := [⟨some (Err.unknownStatusError "garbage" ⟨some "garbage", none⟩ (some 5)),
                         some ⟨some "garbage", none⟩, some 5, 1⟩],
             pollingTimer := none, deferred := [], log := [] } := by
  refine ⟨?_, ?_, ?_⟩
  · have h := (status_classification 0 0 1 [] "ASSIGNED" (some "op1") (some 5) 100).1
      (by decide)
    simpa using h
  · have h := (status_classification 0 0 1 [] "Failed" none (some 5) 100).2.2.1
      (by decide)
    simpa using h
  · have h := (status_classification 0 0 1 [] "garbage" none (some 5) 100).2.2.2.1
      (by decide) (by decide) (by decide)
    simpa using h

/-- The canonical polling machine: the attempt with callback `cb` is
waiting on an outstanding `queryOperationStatus` call. -/
def pollingMachine (req : Request) (oid : Option String) (cb : Token)
    (L : List TraceEntry) : Machine :=
  { state := FsmState.polling, currentOperationCallback := some cb,
    regOps := [], queryOps := [⟨req, oid, cb⟩], endOps := [], pollingTimer := none,
    deferred := [], log := L }

/-- C3: every attempt-terminating error — a transport error on the
registration request or on the status query, a "failed" status, an unknown
status, or cancellation via `endSession` — flows through the
`endingSession` state, and on each path the machine ends in `disconnected`
with the pending register callback resolved exactly once: the explicit
final traces each contain exactly one new resolution of `cb` (for the
cancellation path, `cb` is resolved once with `OperationCancelledError`
and the endSession caller `cbE` separately receives its own result). -/
theorem errors_funnel_through_endingSession (req : Request) (rb : ReqBody)
    (cb cbE : Token) (L : List TraceEntry) (e : Err) (body : Option Body)
    (result : Option Res) (s : String) (oid : Option String)
    (pollingInterval : Nat) (dErr : Option Err) :
    (step (inflightMachine req rb cb L)
        (Event.regResponse 0 (some e) body result pollingInterval) =
      some { state := FsmState.endingSession, currentOperationCallback := none,
             regOps := [], queryOps := [],
             endOps := [⟨some e, body, result, cb⟩], pollingTimer := none,
             deferred := [], log := L } ∧
     step { state := FsmState.endingSession, currentOperationCallback := none,
            regOps := [], queryOps := [],
            endOps := [⟨some e, body, result, cb⟩], pollingTimer := none,
            deferred := [], log := L } (Event.endResponse 0 dErr) =
      some { state := FsmState.disconnected, currentOperationCallback := none,
             regOps := [], queryOps := [], endOps := [], pollingTimer := none,
             deferred := [],
             log := L ++ [TraceEntry.resolution ⟨cb, some e, body, result⟩] }) ∧
    (step (pollingMachine req oid cb L)
        (Event.queryResponse 0 (some e) body result pollingInterval) =
      some { state := FsmState.endingSession, currentOperationCallback := none,
             regOps := [], queryOps := [],
             endOps := [⟨some e, body, result, cb⟩], pollingTimer := none,
             deferred := [], log := L }) ∧
    (lowerString s = "failed" →
      step (inflightMachine req rb cb L)
          (Event.regResponse 0 none (some ⟨some s, oid⟩) result pollingInterval) =
        some { state := FsmState.endingSession, currentOperationCallback := none,
               regOps := [], queryOps := [],
               endOps := [⟨some (Err.deviceRegistrationFailed ⟨some s, oid⟩ result),
                           some ⟨some s, oid⟩, result, cb⟩],
               pollingTimer := none, deferred := [], log := L } ∧
      step { state := FsmState.endingSession, currentOperationCallback := none,
             regOps := [], queryOps := [],
             endOps := [⟨some (Err.deviceRegistrationFailed ⟨some s, oid⟩ result),
                         some ⟨some s, oid⟩, result, cb⟩],
             pollingTimer := none, deferred := [], log := L } (Event.endResponse 0 dErr) =
        some { state := FsmState.disconnected, currentOperationCallback := none,
               regOps := [], queryOps := [], endOps := [], pollingTimer := none,
               deferred := [],
               log := L ++ [TraceEntry.resolution
                 ⟨cb, some (Err.deviceRegistrationFailed ⟨some s, oid⟩ result),
                  some ⟨some s, oid⟩, result⟩] }) ∧
    (lowerString s ≠ "assigned" → lowerString s ≠ "assigning" → lowerString s ≠ "failed" →
      step (inflightMachine req rb cb L)
          (Event.regResponse 0 none (some ⟨some s, oid⟩) result pollingInterval) =
        some { state := FsmState.endingSession, currentOperationCallback := none,
               regOps := [], queryOps := [],
               endOps := [⟨some (Err.unknownStatusError s ⟨some s, oid⟩ result),
                           some ⟨some s, oid⟩, result, cb⟩],
               pollingTimer := none, deferred := [], log := L } ∧
      step { state := FsmState.endingSession, currentOperationCallback := none,
             regOps := [], queryOps := [],
             endOps := [⟨some (Err.unknownStatusError s ⟨some s, oid⟩ result),
                         some ⟨some s, oid⟩, result, cb⟩],
             pollingTimer := none, deferred := [], log := L } (Event.endResponse 0 dErr) =
        some { state := FsmState.disconnected, currentOperationCallback := none,
               regOps := [], queryOps := [], endOps := [], pollingTimer := none,
               deferred := [],
               log := L ++ [TraceEntry.resolution
                 ⟨cb, some (Err.unknownStatusError s ⟨some s, oid⟩ result),
                  some ⟨some s, oid⟩, result⟩] }) ∧
    (step (inflightMachine req rb cb L) (Event.endSession cbE) =
      some { state := FsmState.endingSession, currentOperationCallback := none,
             regOps := [⟨req, rb, cb⟩], queryOps := [],
             endOps := [⟨none, none, none, cbE⟩], pollingTimer := none,
             deferred := [],
             log := L ++ [TraceEntry.resolution
               ⟨cb, some Err.operationCancelled, none, none⟩] } ∧
     step { state := FsmState.endingSession, currentOperationCallback := none,
            regOps := [⟨req, rb, cb⟩], queryOps := [],
            endOps := [⟨none, none, none, cbE⟩], pollingTimer := none,
            deferred := [],
            log := L ++ [TraceEntry.resolution
              ⟨cb, some Err.operationCancelled, none, none⟩] } (Event.endResponse 0 dErr) =
      some { state := FsmState.disconnected, currentOperationCallback := none,
             regOps := [⟨req, rb, cb⟩], queryOps := [], endOps := [], pollingTimer := none,
             deferred := [],
             log := (L ++ [TraceEntry.resolution
               ⟨cb, some Err.operationCancelled, none, none⟩]) ++
               [TraceEntry.resolution ⟨cbE, dErr, none, none⟩] }) := by
  refine ⟨⟨?_, ?_⟩, ?_, fun hs => ⟨?_, ?_⟩, fun h1 h2 h3 => ⟨?_, ?_⟩, ⟨?_, ?_⟩⟩
  · simp [step, inflightMachine, responseReceived_onEnter, responseError_onEnter,
      endingSession_onEnter, replayDeferred, replayAll]
  · simp [step, disconnected_onEnter, replayDeferred, replayAll]
  · simp [step, pollingMachine, responseReceived_onEnter, responseError_onEnter,
      endingSession_onEnter, replayDeferred, replayAll]
  · simp [step, inflightMachine, responseReceived_onEnter, hs,
      responseError_onEnter, endingSession_onEnter, replayDeferred, replayAll]
  · simp [step, disconnected_onEnter, replayDeferred, replayAll]
  · simp [step, inflightMachine, responseReceived_onEnter, h1, h2, h3,
      responseError_onEnter, endingSession_onEnter, replayDeferred, replayAll]
  · simp [step, disconnected_onEnter, replayDeferred, replayAll]
  · simp [step, handle, inflightMachine, endingSession_onEnter, replayDeferred, replayAll]
  · simp [step, disconnected_onEnter, replayDeferred, replayAll]

/-- C3 witness: concrete "FAILED" and unknown-status completions land in
`endingSession` carrying the corresponding error. -/
theorem errors_funnel_witness :
    (step (inflightMachine 0 0 1 [])
        (Event.regResponse 0 none (some ⟨some "FAILED", none⟩) (some 4) 100) =
      some { state := FsmState.endingSession, currentOperationCallback := none,
             regOps := [], queryOps := [],
             endOps := [⟨some (Err.deviceRegistrationFailed ⟨some "FAILED", none⟩ (some 4)),
                         some ⟨some "FAILED", none⟩, some 4, 1⟩],
             pollingTimer := none, deferred := [], log := [] }) ∧
    (step (inflightMachine 0 0 1 [])
        (Event.regResponse 0 none (some ⟨some "weird", none⟩) (some 4) 100) =
      some { state := FsmState.endingSession, currentOperationCallback := none,
             regOps := [], queryOps := [],
             endOps := [⟨some (Err.unknownStatusError "weird" ⟨some "weird", none⟩ (some 4)),
                         some ⟨some "weird", none⟩, some 4, 1⟩],
             pollingTimer := none, deferred := [], log := [] }) := by
  constructor
  · exact ((errors_funnel_through_endingSession 0 0 1 2 [] (Err.transportErr 0) none
      (some 4) "FAILED" none 100 none).2.2.1 (by decide)).1
  · exact ((errors_funnel_through_endingSession 0 0 1 2 [] (Err.transportErr 0) none
      (some 4) "weird" none 100 none).2.2.2.1 (by decide) (by decide) (by decide)).1

/-- The token captured by a caller input. -/
def inputToken : Input → Token
  | Input.register _ _ cb => cb
  | Input.endSession cb => cb

/-- All callback tokens held anywhere in the machine's operational state
(outstanding transport calls, the timer closure, and
`_currentOperationCallback`). -/
def opTokens (m : Machine) : List Token :=
  m.regOps.map RegOp.callback ++ m.queryOps.map QueryOp.callback ++
  m.endOps.map EndOp.callback ++
  (match m.pollingTimer with | some t => [t.callback] | none => []) ++
  (match m.currentOperationCallback with | some c => [c] | none => [])

/-- Number of outstanding registration/query operations whose captured
callback equals `_currentOperationCallback` (the live operations). -/
def matchCount (m : Machine) : Nat :=
  (m.regOps.map RegOp.callback ++ m.queryOps.map QueryOp.callback).countP
    (fun t => decide (m.currentOperationCallback = some t))

/-- Counting helper: erasing a counted element decrements `countP`. -/
theorem countP_eraseIdx_of_getElem {α : Type} (p : α → Bool) :
    ∀ (l : List α) (i : Nat) (x : α), l[i]? = some x → p x = true →
      l.countP p = (l.eraseIdx i).countP p + 1 := by
  intro l
  induction l with
  | nil => intro i x h; simp at h
  | cons a t ih =>
    intro i x h hp
    cases i with
    | zero =>
      simp at h
      subst h
      simp [List.countP_cons, hp]
    | succ j =>
      simp at h
      have h2 := ih j x h hp
      simp [List.countP_cons]
      omega

/-- Counting helper: erasing never increases `countP`. -/
theorem countP_eraseIdx_le {α : Type} (p : α → Bool) (l : List α) (i : Nat) :
    (l.eraseIdx i).countP p ≤ l.countP p :=
  (List.eraseIdx_sublist l i).countP_le p

/-- With no current operation callback there are no live operations. -/
theorem matchCount_cur_none (m : Machine) (h : m.currentOperationCallback = none) :
    matchCount m = 0 := by
  simp [matchCount, h]

/-- The machine-state invariant maintained by every reachable machine:
at most one (exactly one, in `endingSession`) outstanding transport
end-session call, none outside `endingSession`; no current operation
callback inside `endingSession`; the poll timer is armed only in
`waitingToPoll`; at most one live registration/query operation, and only
while one is supposed to be in flight; inputs are deferred only inside
`endingSession`, with mutually distinct tokens not held elsewhere; and the
machine never rests in the transient classification states. -/
structure MInv (m : Machine) : Prop where
  endOps_len : m.state = FsmState.endingSession → m.endOps.length = 1
  endOps_nil : m.state ≠ FsmState.endingSession → m.endOps = []
  cur_ending : m.state = FsmState.endingSession → m.currentOperationCallback = none
  timer_state : m.pollingTimer ≠ none → m.state = FsmState.waitingToPoll
  match_bound : matchCount m ≤
    (if m.state = FsmState.sendingRegistrationRequest ∨ m.state = FsmState.polling
      then 1 else 0)
  deferred_state : m.deferred ≠ [] → m.state = FsmState.endingSession
  deferred_nodup : (m.deferred.map inputToken).Nodup
  deferred_fresh : ∀ tok ∈ m.deferred.map inputToken, tok ∉ opTokens m
  not_transient : m.state ≠ FsmState.responseReceived ∧
    m.state ≠ FsmState.responseComplete ∧ m.state ≠ FsmState.responseError

/-- The initial machine satisfies the invariant. -/
theorem inv_init : MInv initMachine := by
  constructor <;> simp [initMachine, matchCount, opTokens]

/-- Membership characterization for `opTokens`. -/
theorem mem_opTokens (m : Machine) (x : Token) :
    x ∈ opTokens m ↔
      (x ∈ m.regOps.map RegOp.callback ∨ x ∈ m.queryOps.map QueryOp.callback ∨
       x ∈ m.endOps.map EndOp.callback ∨
       (∃ t, m.pollingTimer = some t ∧ x = t.callback) ∨
       m.currentOperationCallback = some x) := by
  unfold opTokens
  cases hp : m.pollingTimer <;> cases hc : m.currentOperationCallback <;>
    simp [hp, hc] <;> aesop

/-- Counting helper: a token foreign to a list is never counted. -/
theorem countP_token_zero (cb : Token) (l : List Token) (h : ∀ t ∈ l, t ≠ cb) :
    l.countP (fun t => decide ((some cb : Option Token) = some t)) = 0 := by
  apply List.countP_eq_zero.mpr
  intro a ha
  simp only [decide_eq_true_eq, Option.some.injEq]
  exact fun hh => (h a ha) hh.symm

theorem matchCount_fresh_sendingRR (m : Machine) (req : Request) (rb : ReqBody)
    (cb : Token) (hfresh : cb ∉ opTokens m) :
    matchCount (sendingRegistrationRequest_onEnter m req rb cb) = 1 := by
  have hr : List.countP ((fun t => decide (cb = t)) ∘ RegOp.callback) m.regOps = 0 := by
    apply List.countP_eq_zero.mpr
    intro op hop
    simp only [Function.comp_apply, decide_eq_true_eq]
    intro hh
    exact hfresh ((mem_opTokens m cb).mpr
      (Or.inl (hh ▸ List.mem_map_of_mem RegOp.callback hop)))
  have hq : List.countP ((fun t => decide (cb = t)) ∘ QueryOp.callback) m.queryOps = 0 := by
    apply List.countP_eq_zero.mpr
    intro op hop
    simp only [Function.comp_apply, decide_eq_true_eq]
    intro hh
    exact hfresh ((mem_opTokens m cb).mpr
      (Or.inr (Or.inl (hh ▸ List.mem_map_of_mem QueryOp.callback hop))))
  simp [matchCount, sendingRegistrationRequest_onEnter, List.countP_append]
  rw [hr, hq]

theorem matchCount_endingSession_zero (m : Machine) (err : Option Err)
    (body : Option Body) (result : Option Res) (cb : Token) :
    matchCount (endingSession_onEnter m err body result cb) = 0 := by
  cases hc : m.currentOperationCallback <;>
    simp [matchCount, endingSession_onEnter, hc]

theorem minv_startAttempt (m : Machine) (req : Request) (rb : ReqBody) (cb : Token)
    (hfresh : cb ∉ opTokens m) (hend : m.endOps = []) (hdef : m.deferred = [])
    (htmr : m.pollingTimer = none) :
    MInv (sendingRegistrationRequest_onEnter m req rb cb) := by
  have hcount := matchCount_fresh_sendingRR m req rb cb hfresh
  constructor <;> simp_all [sendingRegistrationRequest_onEnter]

theorem minv_logOnly (m : Machine) (L : List TraceEntry) (hI : MInv m) :
    MInv { m with log := L } :=
  ⟨hI.endOps_len, hI.endOps_nil, hI.cur_ending, hI.timer_state, hI.match_bound,
   hI.deferred_state, hI.deferred_nodup, hI.deferred_fresh, hI.not_transient⟩

theorem minv_enterEnding (m : Machine) (err : Option Err) (body : Option Body)
    (result : Option Res) (cb : Token) (hend : m.endOps = []) (hdef : m.deferred = [])
    (htmr : m.pollingTimer = none) :
    MInv (endingSession_onEnter m err body result cb) := by
  have h0 := matchCount_endingSession_zero m err body result cb
  cases hc : m.currentOperationCallback <;> constructor <;>
    simp_all [endingSession_onEnter, hc]

theorem minv_defer (m : Machine) (i : Input) (hI : MInv m)
    (hs : m.state = FsmState.endingSession)
    (hfresh : inputToken i ∉ opTokens m)
    (hnd : inputToken i ∉ m.deferred.map inputToken) :
    MInv { m with deferred := m.deferred ++ [i] } := by
  refine ⟨hI.endOps_len, hI.endOps_nil, hI.cur_ending, hI.timer_state, hI.match_bound,
    fun _ => hs, ?_, ?_, hI.not_transient⟩
  · simp only [List.map_append, List.map_cons, List.map_nil]
    rw [List.nodup_append]
    refine ⟨hI.deferred_nodup, by simp, ?_⟩
    intro a ha hb
    simp at hb
    subst hb
    exact hnd ha
  · intro tok htok
    simp only [List.map_append, List.map_cons, List.map_nil, List.mem_append,
      List.mem_singleton] at htok
    rcases htok with h | h
    · exact hI.deferred_fresh tok h
    · subst h
      exact hfresh

theorem opTokens_sendRR (m : Machine) (req : Request) (rb : ReqBody) (cb : Token) :
    ∀ x ∈ opTokens (sendingRegistrationRequest_onEnter m req rb cb),
      x ∈ opTokens m ∨ x = cb := by
  intro x hx
  rw [mem_opTokens] at hx
  simp [sendingRegistrationRequest_onEnter] at hx
  rw [mem_opTokens]
  aesop

theorem opTokens_endingS (m : Machine) (err : Option Err) (body : Option Body)
    (result : Option Res) (cb : Token) :
    ∀ x ∈ opTokens (endingSession_onEnter m err body result cb),
      x ∈ opTokens m ∨ x = cb := by
  intro x hx
  rw [mem_opTokens] at hx
  cases hc : m.currentOperationCallback <;>
    simp [endingSession_onEnter, hc] at hx <;>
    rw [mem_opTokens] <;> aesop

theorem opTokens_timerClear (m : Machine) :
    ∀ x ∈ opTokens { m with pollingTimer := none }, x ∈ opTokens m := by
  intro x hx
  rw [mem_opTokens] at hx
  rw [mem_opTokens]
  aesop

theorem handle_opTokens (m : Machine) (i : Input) :
    ∀ x ∈ opTokens (handle m i), x ∈ opTokens m ∨ x = inputToken i := by
  obtain ⟨st, cur, rOps, qOps, eOps, tmr, dq, lg⟩ := m
  intro x hx
  cases i with
  | register req rb cb =>
    cases st <;> simp only [handle] at hx
    case disconnected => exact opTokens_sendRR _ req rb cb x hx
    case idle => exact opTokens_sendRR _ req rb cb x hx
    all_goals exact Or.inl hx
  | endSession cb =>
    cases st <;> simp only [handle] at hx
    case idle => exact opTokens_endingS _ none none none cb x hx
    case sendingRegistrationRequest => exact opTokens_endingS _ none none none cb x hx
    case polling => exact opTokens_endingS _ none none none cb x hx
    case waitingToPoll =>
      rcases opTokens_endingS _ none none none cb x hx with h | h
      · exact Or.inl (opTokens_timerClear
          ⟨FsmState.waitingToPoll, cur, rOps, qOps, eOps, tmr, dq, lg⟩ x h)
      · exact Or.inr h
    all_goals exact Or.inl hx

theorem handle_deferredTokens (m : Machine) (i : Input) :
    ∀ x ∈ (handle m i).deferred.map inputToken,
      x ∈ m.deferred.map inputToken ∨ x = inputToken i := by
  obtain ⟨st, cur, rOps, qOps, eOps, tmr, dq, lg⟩ := m
  intro x hx
  cases i <;> cases st <;>
    simp_all [handle, sendingRegistrationRequest_onEnter, endingSession_onEnter] <;>
    cases hc : cur <;> simp_all

theorem minv_deferred_nil {m : Machine} (hI : MInv m)
    (hs : m.state ≠ FsmState.endingSession) : m.deferred = [] := by
  by_cases hq : m.deferred = []
  · exact hq
  · exact absurd (hI.deferred_state hq) hs

theorem minv_timer_nil {m : Machine} (hI : MInv m)
    (hs : m.state ≠ FsmState.waitingToPoll) : m.pollingTimer = none := by
  by_cases hq : m.pollingTimer = none
  · exact hq
  · exact absurd (hI.timer_state hq) hs

theorem handle_inv (m : Machine) (i : Input) (hI : MInv m)
    (hfresh : inputToken i ∉ opTokens m)
    (hnd : inputToken i ∉ m.deferred.map inputToken) :
    MInv (handle m i) := by
  cases i with
  | register req rb cb =>
    cases hs : m.state with
    | disconnected =>
      have h2 : handle m (Input.register req rb cb) =
          sendingRegistrationRequest_onEnter m req rb cb := by simp [handle, hs]
      rw [h2]
      exact minv_startAttempt m req rb cb hfresh (hI.endOps_nil (by simp [hs]))
        (minv_deferred_nil hI (by simp [hs])) (minv_timer_nil hI (by simp [hs]))
    | idle =>
      have h2 : handle m (Input.register req rb cb) =
          sendingRegistrationRequest_onEnter m req rb cb := by simp [handle, hs]
      rw [h2]
      exact minv_startAttempt m req rb cb hfresh (hI.endOps_nil (by simp [hs]))
        (minv_deferred_nil hI (by simp [hs])) (minv_timer_nil hI (by simp [hs]))
    | sendingRegistrationRequest =>
      have h2 : handle m (Input.register req rb cb) = { m with log := m.log ++
          [TraceEntry.resolution ⟨cb, some Err.invalidOperation, none, none⟩] } := by
        simp [handle, hs]
      rw [h2]
      exact minv_logOnly m _ hI
    | waitingToPoll =>
      have h2 : handle m (Input.register req rb cb) = { m with log := m.log ++
          [TraceEntry.resolution ⟨cb, some Err.invalidOperation, none, none⟩] } := by
        simp [handle, hs]
      rw [h2]
      exact minv_logOnly m _ hI
    | polling =>
      have h2 : handle m (Input.register req rb cb) = { m with log := m.log ++
          [TraceEntry.resolution ⟨cb, some Err.invalidOperation, none, none⟩] } := by
        simp [handle, hs]
      rw [h2]
      exact minv_logOnly m _ hI
    | responseReceived => exact absurd hs hI.not_transient.1
    | responseComplete => exact absurd hs hI.not_transient.2.1
    | responseError => exact absurd hs hI.not_transient.2.2
    | endingSession =>
      rw [handle_defers m _ (by simp [defersInput, hs])]
      exact minv_defer m _ hI hs hfresh hnd
  | endSession cb =>
    cases hs : m.state with
    | disconnected =>
      have h2 : handle m (Input.endSession cb) = { m with log := m.log ++
          [TraceEntry.resolution ⟨cb, none, none, none⟩] } := by
        simp [handle, hs]
      rw [h2]
      exact minv_logOnly m _ hI
    | idle =>
      have h2 : handle m (Input.endSession cb) =
          endingSession_onEnter m none none none cb := by simp [handle, hs]
      rw [h2]
      exact minv_enterEnding m none none none cb (hI.endOps_nil (by simp [hs]))
        (minv_deferred_nil hI (by simp [hs])) (minv_timer_nil hI (by simp [hs]))
    | sendingRegistrationRequest =>
      have h2 : handle m (Input.endSession cb) =
          endingSession_onEnter m none none none cb := by simp [handle, hs]
      rw [h2]
      exact minv_enterEnding m none none none cb (hI.endOps_nil (by simp [hs]))
        (minv_deferred_nil hI (by simp [hs])) (minv_timer_nil hI (by simp [hs]))
    | polling =>
      have h2 : handle m (Input.endSession cb) =
          endingSession_onEnter m none none none cb := by simp [handle, hs]
      rw [h2]
      exact minv_enterEnding m none none none cb (hI.endOps_nil (by simp [hs]))
        (minv_deferred_nil hI (by simp [hs])) (minv_timer_nil hI (by simp [hs]))
    | waitingToPoll =>
      have h2 : handle m (Input.endSession cb) =
          endingSession_onEnter { m with pollingTimer := none } none none none cb := by
        simp [handle, hs]
      rw [h2]
      exact minv_enterEnding { m with pollingTimer := none } none none none cb
        (hI.endOps_nil (by simp [hs]))
        (show m.deferred = [] from minv_deferred_nil hI (by simp [hs])) rfl
    | responseReceived => exact absurd hs hI.not_transient.1
    | responseComplete => exact absurd hs hI.not_transient.2.1
    | responseError => exact absurd hs hI.not_transient.2.2
    | endingSession =>
      rw [handle_defers m _ (by simp [defersInput, hs])]
      exact minv_defer m _ hI hs hfresh hnd

theorem replayAll_inv (q : List Input) : ∀ m : Machine, MInv m →
    (∀ tok ∈ q.map inputToken, tok ∉ opTokens m) →
    (∀ tok ∈ q.map inputToken, tok ∉ m.deferred.map inputToken) →
    (q.map inputToken).Nodup →
    MInv (replayAll q m) := by
  induction q with
  | nil => intro m hI _ _ _; exact hI
  | cons i rest ih =>
    intro m hI hf hd hnd
    simp only [List.map_cons, List.nodup_cons] at hnd
    obtain ⟨hni, hndr⟩ := hnd
    have hfi : inputToken i ∉ opTokens m := hf _ (by simp)
    have hdi : inputToken i ∉ m.deferred.map inputToken := hd _ (by simp)
    have hInew := handle_inv m i hI hfi hdi
    rw [replayAll]
    apply ih (handle m i) hInew
    · intro tok htok hmem
      rcases handle_opTokens m i tok hmem with h | h
      · exact hf tok (by simp [htok]) h
      · rw [h] at htok
        exact hni htok
    · intro tok htok hmem
      rcases handle_deferredTokens m i tok hmem with h | h
      · exact hd tok (by simp [htok]) h
      · rw [h] at htok
        exact hni htok
    · exact hndr

/-- Map commutes with index erasure. -/
theorem map_eraseIdx_comm {α β : Type} (f : α → β) :
    ∀ (l : List α) (i : Nat), (l.eraseIdx i).map f = (l.map f).eraseIdx i := by
  intro l
  induction l with
  | nil => intro i; simp
  | cons a t ih => intro i; cases i <;> simp [List.eraseIdx, ih]

theorem opTokens_eraseReg (m : Machine) (i : Nat) :
    ∀ x ∈ opTokens { m with regOps := m.regOps.eraseIdx i }, x ∈ opTokens m := by
  intro x hx
  rw [mem_opTokens] at hx
  rw [mem_opTokens]
  rcases hx with h | h
  · rw [map_eraseIdx_comm] at h
    exact Or.inl ((List.eraseIdx_sublist _ i).mem h)
  · exact Or.inr h

theorem opTokens_eraseQuery (m : Machine) (i : Nat) :
    ∀ x ∈ opTokens { m with queryOps := m.queryOps.eraseIdx i }, x ∈ opTokens m := by
  intro x hx
  rw [mem_opTokens] at hx
  rw [mem_opTokens]
  rcases hx with h | h | h
  · exact Or.inl h
  · rw [map_eraseIdx_comm] at h
    exact Or.inr (Or.inl ((List.eraseIdx_sublist _ i).mem h))
  · exact Or.inr (Or.inr h)

theorem opTokens_eraseEnd (m : Machine) (i : Nat) :
    ∀ x ∈ opTokens { m with endOps := m.endOps.eraseIdx i }, x ∈ opTokens m := by
  intro x hx
  rw [mem_opTokens] at hx
  rw [mem_opTokens]
  rcases hx with h | h | h | h
  · exact Or.inl h
  · exact Or.inr (Or.inl h)
  · rw [map_eraseIdx_comm] at h
    exact Or.inr (Or.inr (Or.inl ((List.eraseIdx_sublist _ i).mem h)))
  · exact Or.inr (Or.inr (Or.inr h))

theorem minv_eraseReg (m : Machine) (i : Nat) (hI : MInv m) :
    MInv { m with regOps := m.regOps.eraseIdx i } := by
  refine ⟨hI.endOps_len, hI.endOps_nil, hI.cur_ending, hI.timer_state, ?_,
    hI.deferred_state, hI.deferred_nodup, ?_, hI.not_transient⟩
  · have hle : matchCount { m with regOps := m.regOps.eraseIdx i } ≤ matchCount m := by
      simp only [matchCount, List.countP_append, map_eraseIdx_comm]
      have := countP_eraseIdx_le
        (fun t => decide (m.currentOperationCallback = some t))
        (m.regOps.map RegOp.callback) i
      omega
    exact le_trans hle hI.match_bound
  · intro tok ht hmem
    exact hI.deferred_fresh tok ht (opTokens_eraseReg m i tok hmem)

theorem minv_eraseQuery (m : Machine) (i : Nat) (hI : MInv m) :
    MInv { m with queryOps := m.queryOps.eraseIdx i } := by
  refine ⟨hI.endOps_len, hI.endOps_nil, hI.cur_ending, hI.timer_state, ?_,
    hI.deferred_state, hI.deferred_nodup, ?_, hI.not_transient⟩
  · have hle : matchCount { m with queryOps := m.queryOps.eraseIdx i } ≤ matchCount m := by
      simp only [matchCount, List.countP_append, map_eraseIdx_comm]
      have := countP_eraseIdx_le
        (fun t => decide (m.currentOperationCallback = some t))
        (m.queryOps.map QueryOp.callback) i
      omega
    exact le_trans hle hI.match_bound
  · intro tok ht hmem
    exact hI.deferred_fresh tok ht (opTokens_eraseQuery m i tok hmem)

theorem minv_afterResponse (st : FsmState) (cb : Token) (rOps : List RegOp)
    (qOps : List QueryOp) (lg : List TraceEntry) (err : Option Err) (req : Request)
    (body : Option Body) (result : Option Res) (pollingInterval : Nat) (mOut : Machine)
    (hcnt : (rOps.map RegOp.callback ++ qOps.map QueryOp.callback).countP
        (fun t => decide ((some cb : Option Token) = some t)) = 0)
    (hstep : (responseReceived_onEnter ⟨st, some cb, rOps, qOps, [], none, [], lg⟩
        err req body result pollingInterval cb).map replayDeferred = some mOut) :
    MInv mOut := by
  simp only [List.countP_append] at hcnt
  cases err with
  | some e =>
    simp [responseReceived_onEnter, responseError_onEnter, endingSession_onEnter,
      replayDeferred, replayAll] at hstep
    subst hstep
    constructor <;> simp [matchCount]
  | none =>
    cases body with
    | none => simp [responseReceived_onEnter] at hstep
    | some b =>
      obtain ⟨bs, boid⟩ := b
      cases bs with
      | none => simp [responseReceived_onEnter] at hstep
      | some s =>
        by_cases h1 : lowerString s = "assigned"
        · simp [responseReceived_onEnter, h1, responseComplete_onEnter,
            idle_onEnter, replayDeferred, replayAll] at hstep
          subst hstep
          constructor <;> simp [matchCount]
        · by_cases h2 : lowerString s = "assigning"
          · simp [responseReceived_onEnter, h1, h2,
              waitingToPoll_onEnter, replayDeferred, replayAll] at hstep
            subst hstep
            constructor <;> simp_all [matchCount, List.countP_append]
          · by_cases h3 : lowerString s = "failed"
            · simp [responseReceived_onEnter, h1, h2, h3,
                responseError_onEnter, endingSession_onEnter, replayDeferred,
                replayAll] at hstep
              subst hstep
              constructor <;> simp [matchCount]
            · simp [responseReceived_onEnter, h1, h2, h3,
                responseError_onEnter, endingSession_onEnter, replayDeferred,
                replayAll] at hstep
              subst hstep
              constructor <;> simp [matchCount]

theorem minv_clearDeferred (m : Machine) (hI : MInv m) :
    MInv { m with deferred := [] } :=
  ⟨hI.endOps_len, hI.endOps_nil, hI.cur_ending, hI.timer_state, hI.match_bound,
   by simp, by simp, by simp, hI.not_transient⟩

theorem minv_replayDeferred (m : Machine)
    (hbase : MInv { m with deferred := [] })
    (hfr : ∀ tok ∈ m.deferred.map inputToken, tok ∉ opTokens m)
    (hnd : (m.deferred.map inputToken).Nodup) : MInv (replayDeferred m) := by
  unfold replayDeferred
  apply replayAll_inv _ _ hbase
  · intro tok htok hmem
    exact hfr tok htok hmem
  · simp
  · exact hnd

theorem matchCount_mk (st : FsmState) (cur : Option Token) (rOps : List RegOp)
    (qOps : List QueryOp) (eOps : List EndOp) (tmr : Option TimerPayload)
    (dq : List Input) (lg : List TraceEntry) :
    matchCount ⟨st, cur, rOps, qOps, eOps, tmr, dq, lg⟩ =
      (rOps.map RegOp.callback ++ qOps.map QueryOp.callback).countP
        (fun t => decide (cur = some t)) := rfl

theorem inv_step_regResponse (m : Machine) (i : Nat) (err : Option Err)
    (body : Option Body) (result : Option Res) (pollingInterval : Nat) (m1 : Machine)
    (hI : MInv m)
    (hstep : step m (Event.regResponse i err body result pollingInterval) = some m1) :
    MInv m1 := by
  obtain ⟨st, cur, rOps, qOps, eOps, tmr, dq, lg⟩ := m
  simp only [step] at hstep
  cases hreg : rOps[i]? with
  | none =>
    rw [hreg] at hstep
    simp at hstep
    subst hstep
    exact hI
  | some op =>
    simp only [hreg] at hstep
    by_cases hc : cur = some op.callback
    · subst hc
      rw [if_pos rfl] at hstep
      have hpos : 0 < matchCount ⟨st, some op.callback, rOps, qOps, eOps, tmr, dq, lg⟩ := by
        rw [matchCount]
        apply List.countP_pos_iff.mpr
        exact ⟨op.callback,
          List.mem_append_left _ (List.mem_map_of_mem RegOp.callback
            (List.getElem?_mem hreg)), by simp⟩
      have hstate : st = FsmState.sendingRegistrationRequest ∨ st = FsmState.polling := by
        by_contra hno
        have hb := hI.match_bound
        rw [if_neg hno] at hb
        omega
      have heops : eOps = [] := hI.endOps_nil (by rcases hstate with h | h <;> simp [h])
      have hdq : dq = [] := minv_deferred_nil hI (by rcases hstate with h | h <;> simp [h])
      have htmr : tmr = none := minv_timer_nil hI (by rcases hstate with h | h <;> simp [h])
      subst heops hdq htmr
      have hb := hI.match_bound
      rw [if_pos hstate] at hb
      have hmap : (rOps.map RegOp.callback)[i]? = some op.callback := by
        rw [List.getElem?_map, hreg]
        rfl
      have hsplit := countP_eraseIdx_of_getElem
        (fun t => decide ((some op.callback : Option Token) = some t))
        (rOps.map RegOp.callback) i op.callback hmap (by simp)
      have hcnt : ((rOps.eraseIdx i).map RegOp.callback ++
          qOps.map QueryOp.callback).countP
          (fun t => decide ((some op.callback : Option Token) = some t)) = 0 := by
        rw [List.countP_append, map_eraseIdx_comm]
        rw [matchCount_mk, List.countP_append] at hb
        omega
      exact minv_afterResponse st op.callback (rOps.eraseIdx i) qOps lg err op.request
        body result pollingInterval m1 hcnt hstep
    · rw [if_neg hc] at hstep
      simp at hstep
      subst hstep
      exact minv_eraseReg ⟨st, cur, rOps, qOps, eOps, tmr, dq, lg⟩ i hI

theorem inv_step_queryResponse (m : Machine) (i : Nat) (err : Option Err)
    (body : Option Body) (result : Option Res) (pollingInterval : Nat) (m1 : Machine)
    (hI : MInv m)
    (hstep : step m (Event.queryResponse i err body result pollingInterval) = some m1) :
    MInv m1 := by
  obtain ⟨st, cur, rOps, qOps, eOps, tmr, dq, lg⟩ := m
  simp only [step] at hstep
  cases hqry : qOps[i]? with
  | none =>
    rw [hqry] at hstep
    simp at hstep
    subst hstep
    exact hI
  | some op =>
    simp only [hqry] at hstep
    by_cases hc : cur = some op.callback
    · subst hc
      rw [if_pos rfl] at hstep
      have hpos : 0 < matchCount ⟨st, some op.callback, rOps, qOps, eOps, tmr, dq, lg⟩ := by
        rw [matchCount]
        apply List.countP_pos_iff.mpr
        exact ⟨op.callback,
          List.mem_append_right _ (List.mem_map_of_mem QueryOp.callback
            (List.getElem?_mem hqry)), by simp⟩
      have hstate : st = FsmState.sendingRegistrationRequest ∨ st = FsmState.polling := by
        by_contra hno
        have hb := hI.match_bound
        rw [if_neg hno] at hb
        omega
      have heops : eOps = [] := hI.endOps_nil (by rcases hstate with h | h <;> simp [h])
      have hdq : dq = [] := minv_deferred_nil hI (by rcases hstate with h | h <;> simp [h])
      have htmr : tmr = none := minv_timer_nil hI (by rcases hstate with h | h <;> simp [h])
      subst heops hdq htmr
      have hb := hI.match_bound
      rw [if_pos hstate] at hb
      have hmap : (qOps.map QueryOp.callback)[i]? = some op.callback := by
        rw [List.getElem?_map, hqry]
        rfl
      have hsplit := countP_eraseIdx_of_getElem
        (fun t => decide ((some op.callback : Option Token) = some t))
        (qOps.map QueryOp.callback) i op.callback hmap (by simp)
      have hcnt : (rOps.map RegOp.callback ++
          (qOps.eraseIdx i).map QueryOp.callback).countP
          (fun t => decide ((some op.callback : Option Token) = some t)) = 0 := by
        rw [List.countP_append, map_eraseIdx_comm]
        rw [matchCount_mk, List.countP_append] at hb
        omega
      exact minv_afterResponse st op.callback rOps (qOps.eraseIdx i) lg err op.request
        body result pollingInterval m1 hcnt hstep
    · rw [if_neg hc] at hstep
      simp at hstep
      subst hstep
      exact minv_eraseQuery ⟨st, cur, rOps, qOps, eOps, tmr, dq, lg⟩ i hI

theorem inv_step_endResponse (m : Machine) (i : Nat) (dErr : Option Err) (m1 : Machine)
    (hI : MInv m) (hstep : step m (Event.endResponse i dErr) = some m1) : MInv m1 := by
  obtain ⟨st, cur, rOps, qOps, eOps, tmr, dq, lg⟩ := m
  simp only [step] at hstep
  cases hend : eOps[i]? with
  | none =>
    rw [hend] at hstep
    simp at hstep
    subst hstep
    exact hI
  | some op =>
    simp only [hend] at hstep
    have hst : st = FsmState.endingSession := by
      by_contra hno
      have h0 : eOps = [] := hI.endOps_nil hno
      rw [h0] at hend
      simp at hend
    subst hst
    have hcur : cur = none := hI.cur_ending rfl
    have htmr : tmr = none := by
      by_cases hq : tmr = none
      · exact hq
      · exact absurd (hI.timer_state hq) (by simp)
    subst hcur htmr
    have hlen : eOps.length = 1 := hI.endOps_len rfl
    obtain ⟨a, ha⟩ := List.length_eq_one.mp hlen
    subst ha
    cases i with
    | succ j => simp at hend
    | zero =>
      simp at hend
      subst hend
      simp only [disconnected_onEnter, List.eraseIdx] at hstep
      simp at hstep
      subst hstep
      apply minv_replayDeferred
      · constructor <;> simp [matchCount]
      · intro tok ht hmem
        apply hI.deferred_fresh tok ht
        rw [mem_opTokens] at hmem
        rw [mem_opTokens]
        rcases hmem with h | h | h | h | h
        · exact Or.inl h
        · exact Or.inr (Or.inl h)
        · simp at h
        · simp at h
        · simp at h
      · exact hI.deferred_nodup

theorem inv_step_timer (m : Machine) (m1 : Machine) (hI : MInv m)
    (hstep : step m Event.timerElapse = some m1) : MInv m1 := by
  obtain ⟨st, cur, rOps, qOps, eOps, tmr, dq, lg⟩ := m
  simp only [step] at hstep
  cases htm : tmr with
  | none =>
    subst htm
    simp at hstep
    subst hstep
    exact hI
  | some t =>
    simp only [htm] at hstep
    have hw : st = FsmState.waitingToPoll := hI.timer_state (by simp [htm])
    subst hw
    have heops : eOps = [] := hI.endOps_nil (by simp)
    have hdq : dq = [] := minv_deferred_nil hI (by simp)
    subst heops hdq
    simp [polling_onEnter, replayDeferred, replayAll] at hstep
    subst hstep
    have hb := hI.match_bound
    rw [if_neg (by simp)] at hb
    rw [matchCount_mk, List.countP_append] at hb
    refine ⟨by simp, by simp, by simp, by simp, ?_, by simp, by simp, by simp, by simp⟩
    rw [if_pos (by simp)]
    rw [matchCount_mk, List.countP_append, List.map_append, List.countP_append]
    simp only [List.map_cons, List.map_nil]
    have hone : List.countP (fun tok => decide (cur = some tok))
        [TimerPayload.callback t] ≤
        ([TimerPayload.callback t] : List Token).length :=
      List.countP_le_length _
    simp only [List.length_cons, List.length_nil] at hone
    omega

theorem inv_step_input (m : Machine) (i : Input) (hI : MInv m)
    (hfresh : inputToken i ∉ opTokens m)
    (hnd : inputToken i ∉ m.deferred.map inputToken) :
    MInv (replayDeferred (handle m i)) := by
  have hIn := handle_inv m i hI hfresh hnd
  exact minv_replayDeferred _ (minv_clearDeferred _ hIn) hIn.deferred_fresh
    hIn.deferred_nodup

/-- Freshness of a caller event: each `register` / `endSession` invocation
hands the machine a callback closure distinct from every closure it already
holds (JS closures are distinct objects under `===`). -/
def eventFresh (m : Machine) : Event → Prop
  | Event.register _ _ cb => cb ∉ opTokens m ∧ cb ∉ m.deferred.map inputToken
  | Event.endSession cb => cb ∉ opTokens m ∧ cb ∉ m.deferred.map inputToken
  | _ => True

/-- Machines reachable from the initial machine by any sequence of caller
calls (with fresh callbacks), transport completions and timer elapses. -/
inductive Reachable : Machine → Prop where
  | init : Reachable initMachine
  | next (m : Machine) (e : Event) (m1 : Machine) : Reachable m → eventFresh m e →
      step m e = some m1 → Reachable m1

theorem inv_step (m : Machine) (e : Event) (m1 : Machine) (hI : MInv m)
    (hf : eventFresh m e) (hstep : step m e = some m1) : MInv m1 := by
  cases e with
  | register req rb cb =>
    have hres := inv_step_input m (Input.register req rb cb) hI hf.1 hf.2
    simp only [step, Option.some.injEq] at hstep
    subst hstep
    exact hres
  | endSession cb =>
    have hres := inv_step_input m (Input.endSession cb) hI hf.1 hf.2
    simp only [step, Option.some.injEq] at hstep
    subst hstep
    exact hres
  | regResponse i err body result pollingInterval =>
    exact inv_step_regResponse m i err body result pollingInterval m1 hI hstep
  | queryResponse i err body result pollingInterval =>
    exact inv_step_queryResponse m i err body result pollingInterval m1 hI hstep
  | endResponse i dErr =>
    exact inv_step_endResponse m i dErr m1 hI hstep
  | timerElapse =>
    exact inv_step_timer m m1 hI hstep

theorem reachable_inv (m : Machine) (h : Reachable m) : MInv m := by
  induction h with
  | init => exact inv_init
  | next m e m1 _ hf hstep ih => exact inv_step m e m1 ih hf hstep

/-- Number of caller completions the machine is currently bound to resolve:
the current operation callback plus the callbacks carried by outstanding
transport end-session calls (the `EndingSession` carried call). -/
def pendingCount (m : Machine) : Nat :=
  (match m.currentOperationCallback with | some _ => 1 | none => 0) + m.endOps.length

/-- C9: over every event sequence from the initial machine (with each
caller call handing over a fresh callback closure), at most one operation
token and at most one pending caller completion exist at any instant
(`pendingCount` — the current operation callback plus the carried
end-session completion — never exceeds 1); the token is minted on entering
`sendingRegistrationRequest` (set to the new attempt's callback) and
cleared to `none` by `responseComplete`, `responseError`, `endingSession`
and `disconnected` entries — every terminal resolution and cancellation
path. -/
theorem single_token_single_pending (m : Machine) (h : Reachable m) :
    pendingCount m ≤ 1 ∧
    (∀ (m0 : Machine) (req : Request) (rb : ReqBody) (cb : Token),
      (sendingRegistrationRequest_onEnter m0 req rb cb).currentOperationCallback =
        some cb) ∧
    (∀ (m0 : Machine) (body : Body) (result : Option Res) (cb : Token),
      (responseComplete_onEnter m0 body result cb).currentOperationCallback = none) ∧
    (∀ (m0 : Machine) (e : Err) (body : Option Body) (result : Option Res) (cb : Token),
      (responseError_onEnter m0 e body result cb).currentOperationCallback = none) ∧
    (∀ (m0 : Machine) (err : Option Err) (body : Option Body) (result : Option Res)
      (cb : Token),
      (endingSession_onEnter m0 err body result cb).currentOperationCallback = none) ∧
    (∀ (m0 : Machine) (err : Option Err) (body : Option Body) (result : Option Res)
      (cb : Token),
      (disconnected_onEnter m0 err body result cb).currentOperationCallback = none) := by
  have hI := reachable_inv m h
  refine ⟨?_, fun m0 req rb cb => rfl, fun m0 body result cb => rfl,
    fun m0 e body result cb => ?_, fun m0 err body result cb => ?_,
    fun m0 err body result cb => ?_⟩
  · by_cases hs : m.state = FsmState.endingSession
    · have h1 := hI.endOps_len hs
      have h2 := hI.cur_ending hs
      simp [pendingCount, h1, h2]
    · have h1 := hI.endOps_nil hs
      cases hc : m.currentOperationCallback <;> simp [pendingCount, h1, hc]
  · simp [responseError_onEnter, endingSession_onEnter]
  · cases hc : m0.currentOperationCallback <;> simp [endingSession_onEnter, hc]
  · cases cb2 : (some cb : Option Token) <;> simp [disconnected_onEnter]

/-- The machine after one accepted `register` call (callback 1). -/
def c9Machine : Machine :=
  ⟨FsmState.sendingRegistrationRequest, some 1, [⟨0, 0, 1⟩], [], [], none, [], []⟩

/-- C9 witness: the machine after one accepted `register` is reachable with
a fresh callback, and holds exactly one pending caller completion. -/
theorem single_token_single_pending_witness : pendingCount c9Machine ≤ 1 :=
  (single_token_single_pending c9Machine
    (Reachable.next initMachine (Event.register 0 0 1) c9Machine Reachable.init
      ⟨by decide, by decide⟩ (by rfl))).1
